import Mathlib

/-!
Verification of the numeric conversion core of this repository
(`shared/modules/Numeric.ts` and `shared/modules/conversion.utils.ts`).

The embedding models BigNumber values (the `bignumber.js` arbitrary-precision
decimals used by the source) as rational numbers `ℚ`.  Every BigNumber a run of
the source can produce has a finite decimal expansion, so `ℚ` is a faithful
carrier.  Library semantics that matter here and are embedded explicitly:

* `plus`/`minus`/`times` are exact;
* `div` rounds its result to `DECIMAL_PLACES = 20` decimal places with the
  default rounding mode `ROUND_HALF_UP` (the library defaults in the version
  the source pins);
* `round(dp, rm)` rounds to `dp` decimal places with mode `rm`
  (`ROUND_HALF_UP = 4` is the default mode, `ROUND_HALF_DOWN = 5` rounds ties
  toward zero, `ROUND_DOWN = 1` truncates toward zero); `round()` with no
  arguments rounds to 0 decimal places.

Fallible source code (constructor validation, thrown `Error`s) is embedded
with `Except String`.  Interpolated fragments of thrown messages are elided;
only which paths throw is load-bearing.
-/

/-- The three rounding-mode constants of `bignumber.js` used by the source. -/
def ROUND_DOWN : ℕ := 1

/-- Default rounding mode of `bignumber.js` (`.round()` / division). -/
def ROUND_HALF_UP : ℕ := 4

/-- `BigNumber.ROUND_HALF_DOWN`, ties round toward zero. -/
def ROUND_HALF_DOWN : ℕ := 5

/-- Decimal places kept by `bignumber.js` division (library default). -/
def DECIMAL_PLACES : ℕ := 20

/-!
Exact rational arithmetic, written through the `mkRat` smart constructor so
that every operation evaluates by kernel reduction (the ambient `ℚ`
operations are irreducible).  `qadd_eq`, `qsub_eq`, `qmul_eq`, `qinv_eq` and
`qdiv_eq` below prove them equal to the standard operations.
-/

/-- Exact rational addition. -/
def qadd (a b : ℚ) : ℚ :=
  mkRat (a.num * (b.den : ℤ) + b.num * (a.den : ℤ)) (a.den * b.den)

/-- Exact rational subtraction. -/
def qsub (a b : ℚ) : ℚ := qadd a (-b)

/-- Exact rational multiplication. -/
def qmul (a b : ℚ) : ℚ := mkRat (a.num * b.num) (a.den * b.den)

/-- Exact rational inverse (zero maps to zero). -/
def qinv (a : ℚ) : ℚ :=
  mkRat (if a.num < 0 then -(a.den : ℤ) else (a.den : ℤ)) a.num.natAbs

/-- Exact rational division (division by zero yields zero). -/
def qdiv (a b : ℚ) : ℚ := qmul a (qinv b)

/-- Floor of a rational, by floor-division of numerator by denominator
(kept free of typeclass indirection so that proofs can evaluate it). -/
def ratFloor (q : ℚ) : ℤ := Int.fdiv q.num (q.den : ℤ)

/-- Ceiling of a rational. -/
def ratCeil (q : ℚ) : ℤ := -Int.fdiv (-q.num) (q.den : ℤ)

/-- Truncation toward zero of a rational to an integer (`ROUND_DOWN`). -/
def ratTruncate (q : ℚ) : ℤ := if 0 ≤ q then ratFloor q else ratCeil q

/-- Round to nearest integer, ties away from zero (`ROUND_HALF_UP`). -/
def ratHalfUp (q : ℚ) : ℤ :=
  if 0 ≤ q then ratFloor (qadd q (mkRat 1 2)) else ratCeil (qsub q (mkRat 1 2))

/-- Round to nearest integer, ties toward zero (`ROUND_HALF_DOWN`). -/
def ratHalfDown (q : ℚ) : ℤ :=
  if 0 ≤ q then ratCeil (qsub q (mkRat 1 2)) else ratFloor (qadd q (mkRat 1 2))

/-- Dispatch on a `bignumber.js` rounding-mode constant. -/
def ratRoundInt (mode : ℕ) (q : ℚ) : ℤ :=
  if mode = ROUND_DOWN then ratTruncate q
  else if mode = ROUND_HALF_DOWN then ratHalfDown q
  else ratHalfUp q

/-- `BigNumber.prototype.round(dp, mode)`: round to `dp` decimal places. -/
def bigRound (q : ℚ) (dp : ℕ) (mode : ℕ) : ℚ :=
  mkRat (ratRoundInt mode (qmul q ((10 ^ dp : ℕ) : ℚ))) (10 ^ dp)

/-- `BigNumber.prototype.div`: exact quotient rounded to `DECIMAL_PLACES`
decimal places with the default half-up mode (library semantics). -/
def bigDiv (x y : ℚ) : ℚ := bigRound (qdiv x y) DECIMAL_PLACES ROUND_HALF_UP

/-- `EtherDenomination` enum from `shared/constants/common` (its three members
are exactly the keys the denomination tables in `Numeric.ts` dispatch on). -/
inductive EtherDenomination
  | ETH
  | GWEI
  | WEI
deriving DecidableEq, Repr

/- ------------------------------------------------------------------ -/
/- Character-level string helpers (JS string and regex semantics).     -/
/- ------------------------------------------------------------------ -/

/-- Hexadecimal digit as accepted by the `[0-9a-f]/iu` character class. -/
def isHexDigitChar (c : Char) : Bool :=
  c.isDigit || ('a' ≤ c && c ≤ 'f') || ('A' ≤ c && c ≤ 'F')

/-- `isHexString` from `@metamask/utils`: matches `/^(?:0x)?[0-9a-f]+$/iu`
(optional case-insensitive `0x` prefix, then one or more hex digits). -/
def isHexStringL (l : List Char) : Bool :=
  let body : List Char :=
    match l with
    | '0' :: 'x' :: rest => rest
    | '0' :: 'X' :: rest => rest
    | other => other
  !body.isEmpty && body.all isHexDigitChar

/-- JS `value.replace('-', '')`: removes only the first `-`. -/
def removeFirstDash : List Char → List Char
  | [] => []
  | c :: cs => if c = '-' then cs else c :: removeFirstDash cs

/-- Source `isHexStringOrNegatedHexString`. -/
def isHexStringOrNegatedHexStringL (l : List Char) : Bool :=
  isHexStringL (removeFirstDash l) || isHexStringL l

/-- JS `String.prototype.split(sep)` for a one-character separator. -/
def splitOnChar (sep : Char) : List Char → List (List Char)
  | [] => [[]]
  | c :: cs =>
    match splitOnChar sep cs with
    | [] => [[]]
    | g :: gs => if c = sep then [] :: g :: gs else (c :: g) :: gs

/-- Source `isDecimalHex`: the string splits on `.` into more than one part
and every part is a (possibly negated) hex string. -/
def isDecimalHexL (l : List Char) : Bool :=
  match splitOnChar '.' l with
  | [_] => false
  | parts => parts.all isHexStringOrNegatedHexStringL

/-- `stripHexPrefix` from `shared/modules/hexstring-utils` (not under `src/`;
behavior per the spec's "0x-style prefixes are stripped before parsing" and
the ethereumjs convention it wraps: a literal leading `0x` is dropped). -/
def stripHex0x : List Char → List Char
  | '0' :: 'x' :: rest => rest
  | other => other

/-- Numeric value of a digit character for bases up to 36, or none. -/
def charDigitVal (c : Char) : Option ℕ :=
  if c.isDigit then some (c.toNat - '0'.toNat)
  else if 'a' ≤ c && c ≤ 'z' then some (c.toNat - 'a'.toNat + 10)
  else if 'A' ≤ c && c ≤ 'Z' then some (c.toNat - 'A'.toNat + 10)
  else none

/-- Parse an unsigned digit run most-significant-first. -/
def digitRunToNat (base : ℕ) (l : List Char) : Option ℕ :=
  if l.isEmpty then none
  else
    l.foldl (fun acc c =>
      match acc, charDigitVal c with
      | some a, some d => if d < base then some (a * base + d) else none
      | _, _ => none) (some 0)

/-- `new BigNumber(str, base)` string grammar (the fragment the source can
reach): optional sign, then digits in `base` with at most one `.`; the
fraction part contributes `frac / base ^ len`.  Exponent notation and
whitespace are rejected, as the library does for an explicit base. -/
def bigNumberOfChars (l : List Char) (base : ℕ) : Option ℚ :=
  let (neg, body) :=
    match l with
    | '-' :: rest => (true, rest)
    | '+' :: rest => (false, rest)
    | other => (false, other)
  let parsed : Option ℚ :=
    match splitOnChar '.' body with
    | [ip] =>
      match digitRunToNat base ip with
      | some i => some (i : ℚ)
      | none => none
    | [ip, fp] =>
      if ip.isEmpty && fp.isEmpty then none
      else
        let iVal : Option ℕ := if ip.isEmpty then some 0 else digitRunToNat base ip
        let fVal : Option ℕ := if fp.isEmpty then some 0 else digitRunToNat base fp
        match iVal, fVal with
        | some i, some f => some (qadd (i : ℚ) (mkRat (f : ℤ) (base ^ fp.length)))
        | _, _ => none
    | _ => none
  match parsed with
  | some q => some (if neg then -q else q)
  | none => none

/-- String front-end for `bigNumberOfChars`. -/
def bigNumberOfStr (s : String) (base : ℕ) : Option ℚ :=
  bigNumberOfChars s.data base

/-- `isFinite(parseInt(value, 10))`: after optional leading whitespace and an
optional sign, the next character is a decimal digit (then `parseInt` yields
a finite number; otherwise it yields `NaN`). -/
def jsParseIntFinite (l : List Char) : Bool :=
  let t := l.dropWhile (fun c => c.isWhitespace)
  let t := match t with
    | '-' :: rest => rest
    | '+' :: rest => rest
    | other => other
  match t with
  | c :: _ => c.isDigit
  | [] => false

/- ------------------------------------------------------------------ -/
/- Parsing layer of Numeric.ts                                         -/
/- ------------------------------------------------------------------ -/

/-- Source `hexadecimalToBigNumber` (string case): record the sign, remove the
first `-`, strip a `0x` prefix, parse base 16, then negate if needed.  An
unparseable remainder is the library's thrown "not a number" error. -/
def hexadecimalToBigNumber (s : String) : Except String ℚ :=
  let l := s.data
  let isNegative := match l with | '-' :: _ => true | _ => false
  let valueWithoutNegation := removeFirstDash l
  match bigNumberOfChars (stripHex0x valueWithoutNegation) 16 with
  | some q => Except.ok (if isNegative then -q else q)
  | none => Except.error "BigNumber not a number"

/-- Source `decimalToBigNumber`: `new BigNumber(String(value), 10)`. -/
def decimalToBigNumber (s : String) : Except String ℚ :=
  match bigNumberOfStr s 10 with
  | some q => Except.ok q
  | none => Except.error "BigNumber not a number"

/-- Source `stringToBigNumber` (`Numeric.ts` lines 54-71). -/
def stringToBigNumber (s : String) (numericBase : ℕ) : Except String ℚ :=
  if numericBase = 16 &&
      (isHexStringOrNegatedHexStringL s.data || isDecimalHexL s.data) then
    hexadecimalToBigNumber s
  else if numericBase = 10 && jsParseIntFinite s.data then
    decimalToBigNumber s
  else
    Except.error "String provided to stringToBigNumber is not a hexadecimal or decimal string"

/-- Decimal character run of an integer (JS `${n}` for an integer number). -/
def intToChars (n : ℤ) : List Char :=
  if n < 0 then '-' :: n.natAbs.repr.data else n.natAbs.repr.data

/-- Source `numberToBigNumber`, restricted to integral JS numbers (the only
number inputs the verified claims exercise; integral numbers print as their
decimal digits, which is what `isHexString` inspects). -/
def numberToBigNumber (n : ℤ) (numericBase : ℕ) : Except String ℚ :=
  if numericBase = 16 && isHexStringL (intToChars n) then
    match bigNumberOfChars (intToChars n) 16 with
    | some q => Except.ok q
    | none => Except.error "BigNumber not a number"
  else
    Except.ok (n : ℚ)

/-- The `NumericValue` input union of `Numeric.ts` (`string | number | BN |
BigNumber`); `BN` big-integers and `BigNumber` values both carry an exact
numeric payload and are merged into `big`; `undef` is a JS `undefined`. -/
inductive NumericValue
  | str (s : String)
  | num (n : ℤ)
  | big (q : ℚ)
  | undef
deriving DecidableEq, Repr

/-- Source `valueToBigNumber` (string and number branches; `big` values take
the `instanceof BigNumber` branch of the `Numeric` constructor and never
reach this function). -/
def valueToBigNumber (v : NumericValue) (numericBase : ℕ) : Except String ℚ :=
  match v with
  | .str s => stringToBigNumber s numericBase
  | .num n => numberToBigNumber n numericBase
  | .big q => Except.ok q
  | .undef => Except.error "unreachable"

/- ------------------------------------------------------------------ -/
/- Denomination tables and the Numeric value object                    -/
/- ------------------------------------------------------------------ -/

def BIG_NUMBER_WEI_MULTIPLIER : ℚ := 1000000000000000000
def BIG_NUMBER_GWEI_MULTIPLIER : ℚ := 1000000000
def BIG_NUMBER_ETH_MULTIPLIER : ℚ := 1

/-- Source `toNormalizedDenomination` dispatch table (each entry divides with
BigNumber `div`). -/
def toNormalizedDenomination (d : EtherDenomination) (q : ℚ) : ℚ :=
  match d with
  | .WEI => bigDiv q BIG_NUMBER_WEI_MULTIPLIER
  | .GWEI => bigDiv q BIG_NUMBER_GWEI_MULTIPLIER
  | .ETH => bigDiv q BIG_NUMBER_ETH_MULTIPLIER

/-- Source `toSpecifiedDenomination` dispatch table: multiply by the unit
multiplier, then the mandatory unit rounding (`round()` = 0 decimal places
for WEI, `round(9)` for GWEI and ETH, default half-up mode). -/
def toSpecifiedDenomination (d : EtherDenomination) (q : ℚ) : ℚ :=
  match d with
  | .WEI => bigRound (qmul q BIG_NUMBER_WEI_MULTIPLIER) 0 ROUND_HALF_UP
  | .GWEI => bigRound (qmul q BIG_NUMBER_GWEI_MULTIPLIER) 9 ROUND_HALF_UP
  | .ETH => bigRound (qmul q BIG_NUMBER_ETH_MULTIPLIER) 9 ROUND_HALF_UP

/-- The `Numeric` instance state: BigNumber value, optional serialization
base (10 or 16), optional denomination. -/
structure Numeric where
  value : ℚ
  base : Option ℕ
  denomination : Option EtherDenomination
deriving DecidableEq, Repr

/-- The `Numeric` constructor (`Numeric.ts` lines 156-175): BigNumber inputs
pass through; `undefined` defaults to zero with base 10; otherwise a declared
base is mandatory and the value is parsed. -/
def NumericCtor (value : NumericValue) (base : Option ℕ)
    (denomination : Option EtherDenomination) : Except String Numeric :=
  match value with
  | .big q => Except.ok ⟨q, base, denomination⟩
  | .undef => Except.ok ⟨0, some 10, denomination⟩
  | v =>
    match base with
    | some b => do
      let q ← valueToBigNumber v b
      Except.ok ⟨q, some b, denomination⟩
    | none =>
      Except.error "You must specify the base of the provided number if the value is not already a BigNumber"

/- ------------------------------------------------------------------ -/
/- Method-call semantics: receiver state after the call, and whether   -/
/- the method returned the receiver (`return this`) or a new instance. -/
/- ------------------------------------------------------------------ -/

/-- The value a public `Numeric` method hands back: either the receiver
itself (`return this` in the source) or a freshly constructed instance. -/
inductive MethodRet
  | this
  | fresh (n : Numeric)
deriving DecidableEq, Repr

/-- Resolve a call outcome to the instance the caller observes (the first
component is the receiver's state after the call). -/
def applyRet : Numeric × MethodRet → Numeric
  | (selfAfter, .this) => selfAfter
  | (_, .fresh n) => n

/-- A JS value as seen by a strict-equality comparison against `undefined`:
`typeof` always yields a string, never the `undefined` value. -/
inductive JSVal
  | undef
  | jstr (s : String)
deriving DecidableEq, Repr

/-- JS `typeof this.denomination`: `'undefined'` when unset, `'string'`
otherwise (the enum members are strings at runtime). -/
def jsTypeofDenomination (d : Option EtherDenomination) : JSVal :=
  JSVal.jstr (match d with
    | none => "undefined"
    | some _ => "string")

namespace Numeric

/-- `toBase` (source lines 185-190): re-tags the serialization base, returning
the receiver unchanged when the base already matches.  The runtime compares
with `!==`, so the argument is kept as an `Option` like the field. -/
def toBaseCall (self : Numeric) (base : Option ℕ) : Numeric × MethodRet :=
  if self.base ≠ base then
    (self, .fresh ⟨self.value, base, self.denomination⟩)
  else
    (self, .this)

/-- Value-level `toBase`. -/
def toBase (self : Numeric) (base : Option ℕ) : Numeric :=
  applyRet (toBaseCall self base)

/-- `setDenomination` (source lines 192-195): assigns `this.denomination` and
returns `this`. -/
def setDenominationCall (self : Numeric) (denomination : EtherDenomination) :
    Numeric × MethodRet :=
  ({ self with denomination := some denomination }, .this)

/-- `getValueInETH` (source lines 197-205): the value unchanged when the
denomination is ETH or unset, else the normalizing division. -/
def getValueInETH (self : Numeric) : ℚ :=
  match self.denomination with
  | some .ETH | none => self.value
  | some .WEI => toNormalizedDenomination .WEI self.value
  | some .GWEI => toNormalizedDenomination .GWEI self.value

/-- `toDenomination` (source lines 207-222).  The source guard is
`typeof this.denomination === undefined`: the string produced by `typeof`
compared against the `undefined` value, embedded verbatim below. -/
def toDenominationCall (self : Numeric) (denomination : EtherDenomination) :
    Except String (Numeric × MethodRet) :=
  if jsTypeofDenomination self.denomination = JSVal.undef then
    Except.error "You may not convert a Numeric to a denomination if it was constructed without a denomination supplied"
  else if self.denomination ≠ some denomination then
    Except.ok (self, .fresh
      ⟨toSpecifiedDenomination denomination (getValueInETH self),
        self.base, some denomination⟩)
  else
    Except.ok (self, .this)

/-- Value-level `toDenomination`. -/
def toDenomination (self : Numeric) (denomination : EtherDenomination) :
    Except String Numeric :=
  (toDenominationCall self denomination).map applyRet

/-- `round(numberOfDecimals?, roundingMode = ROUND_HALF_DOWN)` (source lines
224-236): `if (numberOfDecimals)` is a JS truthiness test, so an absent or
zero decimal count returns the receiver unchanged. -/
def roundCall (self : Numeric) (numberOfDecimals : Option ℕ) (mode : ℕ) :
    Numeric × MethodRet :=
  match numberOfDecimals with
  | some n =>
    if n ≠ 0 then
      (self, .fresh ⟨bigRound self.value n mode, self.base, self.denomination⟩)
    else
      (self, .this)
  | none => (self, .this)

/-- Value-level `round`. -/
def round (self : Numeric) (numberOfDecimals : Option ℕ) (mode : ℕ) : Numeric :=
  applyRet (roundCall self numberOfDecimals mode)

/-- `add` (source lines 238-240): sum of values, receiver's base, and no
third constructor argument, so the denomination is cleared. -/
def add (self other : Numeric) : Numeric :=
  ⟨qadd self.value other.value, self.base, none⟩

def addCall (self other : Numeric) : Numeric × MethodRet :=
  (self, .fresh (add self other))

/-- `minus` (source lines 242-244). -/
def minus (self other : Numeric) : Numeric :=
  ⟨qsub self.value other.value, self.base, none⟩

def minusCall (self other : Numeric) : Numeric × MethodRet :=
  (self, .fresh (minus self other))

/-- `times` (source lines 246-252): product, carrying the receiver's base and
denomination. -/
def times (self multiplier : Numeric) : Numeric :=
  ⟨qmul self.value multiplier.value, self.base, self.denomination⟩

def timesCall (self multiplier : Numeric) : Numeric × MethodRet :=
  (self, .fresh (times self multiplier))

/-- `divide` (source lines 262-268): BigNumber quotient, carrying the
receiver's base and denomination. -/
def divide (self divisor : Numeric) : Numeric :=
  ⟨bigDiv self.value divisor.value, self.base, self.denomination⟩

def divideCall (self divisor : Numeric) : Numeric × MethodRet :=
  (self, .fresh (divide self divisor))

/-- `applyConversionRate` (source lines 254-260): builds a base-10 `Numeric`
from the rate (defaulting to 1), replaces it by `1 / rate` via `divide` when
inverting, and delegates to `times`. -/
def applyConversionRate (self : Numeric) (rate : Option ℚ) (invert : Bool) :
    Numeric :=
  let conversionRate : Numeric := ⟨rate.getD 1, some 10, none⟩
  let conversionRate :=
    if invert then divide ⟨1, none, none⟩ conversionRate else conversionRate
  times self conversionRate

def applyConversionRateCall (self : Numeric) (rate : Option ℚ) (invert : Bool) :
    Numeric × MethodRet :=
  (self, .fresh (applyConversionRate self rate invert))

end Numeric

/- ------------------------------------------------------------------ -/
/- Decimal serialization (`toString` on a base-10 Numeric)             -/
/- ------------------------------------------------------------------ -/

/-- Decimal digit character. -/
def digitChar (d : ℕ) : Char := Char.ofNat (48 + d)

/-- Decimal digits of a natural number, least significant first, with
explicit fuel (any fuel at least the digit count is enough). -/
def natDigitsRev (fuel n : ℕ) : List Char :=
  match fuel with
  | 0 => []
  | f + 1 => if n = 0 then [] else digitChar (n % 10) :: natDigitsRev f (n / 10)

/-- Least `k ≤ 100` with `den ∣ 10 ^ k` (every reachable BigNumber value has
such a `k`; the table search mirrors the library's decimal representation). -/
def decExponent (den : ℕ) : ℕ :=
  (((List.range 101).filter (fun k => 10 ^ k % den == 0)).headD 0)

/-- `toString` of a finite-decimal rational in normal (non-exponential)
notation, as BigNumber produces for an explicit base of 10: minimal decimal
digits, no trailing fraction zeros, a leading `0` before the point. -/
def ratToDecChars (q : ℚ) : List Char :=
  let e := decExponent q.den
  let n : ℕ := q.num.natAbs * 10 ^ e / q.den
  let ds := if n = 0 then ['0'] else (natDigitsRev 200 n).reverse
  let ds := if ds.length ≤ e then List.replicate (e + 1 - ds.length) '0' ++ ds else ds
  let out :=
    if e = 0 then ds
    else ds.take (ds.length - e) ++ '.' :: ds.drop (ds.length - e)
  if q.num < 0 then '-' :: out else out

/-- `Numeric.prototype.toString` for a Numeric whose base is decimal. -/
def decStr (q : ℚ) : String := String.mk (ratToDecChars q)

/- ------------------------------------------------------------------ -/
/- conversion.utils.ts                                                 -/
/- ------------------------------------------------------------------ -/

/-- The flat option/value record consumed by `converter`
(`ConversionUtilParams`).  Currencies are opaque strings, `none` standing for
JS `undefined`; `conversionRate = none` models both `null` and `undefined`. -/
structure ConvParams where
  value : NumericValue
  fromNumericBase : Option String
  fromDenomination : Option EtherDenomination
  fromCurrency : Option String
  toNumericBase : Option String
  toDenomination : Option EtherDenomination
  toCurrency : Option String
  numberOfDecimals : Option ℕ
  conversionRate : Option ℚ
  invertConversionRate : Bool
  roundDown : Option ℕ
deriving DecidableEq, Repr

/-- `'hex'`/`'dec'` tags to numeric bases, as at the head of `converter`
(any other tag, e.g. the deprecated `'BN'` or an absent tag, leaves the base
undefined). -/
def baseOfNumericBase : Option String → Option ℕ
  | some "hex" => some 16
  | some "dec" => some 10
  | _ => none

/-- The serialized-or-raw result of `converter`: a string rendered in the
requested base, or the raw BigNumber magnitude. -/
inductive ConvOut
  | str (base : ℕ) (q : ℚ)
  | raw (q : ℚ)
deriving DecidableEq, Repr

/-- `converter`, currency-rate step (`conversion.utils.ts` lines 116-123):
when the currencies differ a `null`/`undefined` rate throws, otherwise
`applyConversionRate` runs; equal currencies skip the step. -/
def converterRateStep (p : ConvParams) (n0 : Numeric) : Except String Numeric :=
  if p.fromCurrency ≠ p.toCurrency then
    match p.conversionRate with
    | none =>
      Except.error "Converting between different currencies requires a conversionRate, but one was not provided"
    | some r => Except.ok (n0.applyConversionRate (some r) p.invertConversionRate)
  else
    Except.ok n0

/-- `converter`, denomination step (`conversion.utils.ts` lines 125-127):
`toDenomination` runs when a target denomination is set or a source
denomination was given, the target defaulting to ETH. -/
def converterDenomStep (p : ConvParams) (n1 : Numeric) : Except String Numeric :=
  if p.toDenomination.isSome || p.fromDenomination.isSome then
    n1.toDenomination (p.toDenomination.getD EtherDenomination.ETH)
  else
    Except.ok n1

/-- `converter`, optional rounding passes (`conversion.utils.ts` lines
129-135): a present `numberOfDecimals` rounds half-down, a truthy
`roundDown` rounds down. -/
def converterRoundSteps (p : ConvParams) (n2 : Numeric) : Numeric :=
  let n3 :=
    if p.numberOfDecimals.isSome then
      n2.round p.numberOfDecimals ROUND_HALF_DOWN
    else
      n2
  match p.roundDown with
  | some rd => if rd ≠ 0 then n3.round (some rd) ROUND_DOWN else n3
  | none => n3

/-- `converter`, result extraction (`conversion.utils.ts` lines 137-151):
serialize via `toBase`/`toString` when a target base was requested, else
return the raw BigNumber. -/
def converterSerialize (p : ConvParams) (n4 : Numeric) : ConvOut :=
  match baseOfNumericBase p.toNumericBase with
  | some b => ConvOut.str b ((n4.toBase (some b)).value)
  | none => ConvOut.raw n4.value

/-- `converter` (`conversion.utils.ts` lines 89-152), the composition of the
steps above after constructing the `Numeric` (which throws on a parse
failure). -/
def converter (p : ConvParams) : Except String ConvOut := do
  let n0 ← NumericCtor p.value (baseOfNumericBase p.fromNumericBase) p.fromDenomination
  let n1 ← converterRateStep p n0
  let n2 ← converterDenomStep p n1
  Except.ok (converterSerialize p (converterRoundSteps p n2))

/-- The options record of `conversionUtil` (`Omit<ConversionUtilParams,
'value'>`); `toCurrency = none` triggers the destructuring default
`toCurrency = fromCurrency`. -/
structure UtilOpts where
  fromCurrency : Option String
  toCurrency : Option String
  fromNumericBase : Option String
  toNumericBase : Option String
  fromDenomination : Option EtherDenomination
  toDenomination : Option EtherDenomination
  numberOfDecimals : Option ℕ
  conversionRate : Option ℚ
  invertConversionRate : Bool
  roundDown : Option ℕ
deriving DecidableEq, Repr

/-- The `toCurrency = fromCurrency` destructuring default. -/
def UtilOpts.resolvedToCurrency (o : UtilOpts) : Option String :=
  match o.toCurrency with
  | none => o.fromCurrency
  | some c => some c

/-- JS truthiness of a conversion rate: `undefined`, `null` and `0` are all
falsy. -/
def rateFalsy : Option ℚ → Bool
  | none => true
  | some r => r = 0

/-- JS `value || '0'` at the `conversionUtil` call into `converter`. -/
def valueOrZero : NumericValue → NumericValue
  | .str "" => .str "0"
  | .num 0 => .str "0"
  | .undef => .str "0"
  | v => v

/-- Result of the `conversionUtil` facade: the guard's literal `0` (a plain
JS number, not a BigNumber) or a `converter` result. -/
inductive UtilOut
  | zeroGuard
  | out (o : ConvOut)
deriving DecidableEq, Repr

/-- `conversionUtil` (`conversion.utils.ts` lines 154-183): short-circuit to
`0` when the currencies differ and the rate is falsy, else delegate to
`converter` (note: `roundDown` is not forwarded by this facade). -/
def conversionUtil (value : NumericValue) (o : UtilOpts) : Except String UtilOut :=
  let fromCurrency := o.fromCurrency
  let toCurrency := o.resolvedToCurrency
  if fromCurrency ≠ toCurrency && rateFalsy o.conversionRate then
    Except.ok UtilOut.zeroGuard
  else
    (converter
      { value := valueOrZero value
        fromNumericBase := o.fromNumericBase
        fromDenomination := o.fromDenomination
        fromCurrency := fromCurrency
        toNumericBase := o.toNumericBase
        toDenomination := o.toDenomination
        toCurrency := toCurrency
        numberOfDecimals := o.numberOfDecimals
        conversionRate := o.conversionRate
        invertConversionRate := o.invertConversionRate
        roundDown := none }).map UtilOut.out

/-- `isValidBase`: an integer strictly greater than 1 (the runtime value is a
JS number, so it is modeled as a rational to admit inputs like `10.5`). -/
def isValidBase (base : ℚ) : Bool := base.den == 1 && 1 < base

/-- `getBigNumber` (`conversion.utils.ts` lines 187-199): validate the base,
then `new BigNumber(value, base)` on the string form of the operand. -/
def getBigNumber (v : NumericValue) (base : ℚ) : Except String ℚ :=
  if !isValidBase base then
    Except.error "Must specify valid base"
  else
    let b := base.num.toNat
    let chars : List Char :=
      match v with
      | .str s => s.data
      | .num n => intToChars n
      | .big q => ratToDecChars q
      | .undef => ['u']
    match bigNumberOfChars chars b with
    | some q => Except.ok q
    | none => Except.error "BigNumber not a number"

/-- Options of the two-operand arithmetic helpers: the shared conversion
options plus the two per-operand bases (named `aBase`/`bBase`,
`multiplicandBase`/`multiplierBase`, `dividendBase`/`divisorBase` in the
source; all validated identically). -/
structure TwoOpOpts where
  aBase : ℚ
  bBase : ℚ
  fromNumericBase : Option String
  fromDenomination : Option EtherDenomination
  fromCurrency : Option String
  toNumericBase : Option String
  toDenomination : Option EtherDenomination
  toCurrency : Option String
  numberOfDecimals : Option ℕ
  conversionRate : Option ℚ
  invertConversionRate : Bool
  roundDown : Option ℕ
deriving DecidableEq, Repr

/-- The conversion options a two-operand helper forwards to `converter`. -/
def TwoOpOpts.toConvParams (o : TwoOpOpts) (value : NumericValue) : ConvParams :=
  { value := value
    fromNumericBase := o.fromNumericBase
    fromDenomination := o.fromDenomination
    fromCurrency := o.fromCurrency
    toNumericBase := o.toNumericBase
    toDenomination := o.toDenomination
    toCurrency := o.toCurrency
    numberOfDecimals := o.numberOfDecimals
    conversionRate := o.conversionRate
    invertConversionRate := o.invertConversionRate
    roundDown := o.roundDown }

/-- `addCurrencies` (`conversion.utils.ts` lines 201-224). -/
def addCurrencies (a b : NumericValue) (o : TwoOpOpts) : Except String ConvOut := do
  if !isValidBase o.aBase || !isValidBase o.bBase then
    Except.error "Must specify valid aBase and bBase"
  else
    let va ← getBigNumber a o.aBase
    let vb ← getBigNumber b o.bBase
    converter (o.toConvParams (.big (qadd va vb)))

/-- `subtractCurrencies` (`conversion.utils.ts` lines 226-249). -/
def subtractCurrencies (a b : NumericValue) (o : TwoOpOpts) : Except String ConvOut := do
  if !isValidBase o.aBase || !isValidBase o.bBase then
    Except.error "Must specify valid aBase and bBase"
  else
    let va ← getBigNumber a o.aBase
    let vb ← getBigNumber b o.bBase
    converter (o.toConvParams (.big (qsub va vb)))

/-- `multiplyCurrencies` (`conversion.utils.ts` lines 251-276). -/
def multiplyCurrencies (a b : NumericValue) (o : TwoOpOpts) : Except String ConvOut := do
  if !isValidBase o.aBase || !isValidBase o.bBase then
    Except.error "Must specify valid multiplicandBase and multiplierBase"
  else
    let va ← getBigNumber a o.aBase
    let vb ← getBigNumber b o.bBase
    converter (o.toConvParams (.big (qmul va vb)))

/-- `divideCurrencies` (`conversion.utils.ts` lines 278-301); the quotient is
BigNumber division. -/
def divideCurrencies (a b : NumericValue) (o : TwoOpOpts) : Except String ConvOut := do
  if !isValidBase o.aBase || !isValidBase o.bBase then
    Except.error "Must specify valid dividendBase and divisorBase"
  else
    let va ← getBigNumber a o.aBase
    let vb ← getBigNumber b o.bBase
    converter (o.toConvParams (.big (bigDiv va vb)))

/-- Parameters of the comparison helpers (`Omit<ConversionUtilParams,
'toNumericBase'>`). -/
structure CompParams where
  value : NumericValue
  fromNumericBase : Option String
  fromDenomination : Option EtherDenomination
  fromCurrency : Option String
  toDenomination : Option EtherDenomination
  toCurrency : Option String
  numberOfDecimals : Option ℕ
  conversionRate : Option ℚ
  invertConversionRate : Bool
  roundDown : Option ℕ
deriving DecidableEq, Repr

/-- A comparison side run through `converter` without a target base; the
result is always a raw magnitude. -/
def CompParams.toConvParams (p : CompParams) : ConvParams :=
  { value := p.value
    fromNumericBase := p.fromNumericBase
    fromDenomination := p.fromDenomination
    fromCurrency := p.fromCurrency
    toNumericBase := none
    toDenomination := p.toDenomination
    toCurrency := p.toCurrency
    numberOfDecimals := p.numberOfDecimals
    conversionRate := p.conversionRate
    invertConversionRate := p.invertConversionRate
    roundDown := p.roundDown }

/-- Magnitude of a comparison side. -/
def compMagnitude (p : CompParams) : Except String ℚ :=
  (converter p.toConvParams).map (fun o =>
    match o with
    | .str _ q => q
    | .raw q => q)

/-- `conversionGreaterThan` (`conversion.utils.ts` lines 303-311). -/
def conversionGreaterThan (p1 p2 : CompParams) : Except String Bool := do
  let firstValue ← compMagnitude p1
  let secondValue ← compMagnitude p2
  Except.ok (decide (secondValue < firstValue))

/-- `conversionLessThan` (`conversion.utils.ts` lines 313-321). -/
def conversionLessThan (p1 p2 : CompParams) : Except String Bool := do
  let firstValue ← compMagnitude p1
  let secondValue ← compMagnitude p2
  Except.ok (decide (firstValue < secondValue))

/-- `conversionGTE` (`conversion.utils.ts` lines 335-342). -/
def conversionGTE (p1 p2 : CompParams) : Except String Bool := do
  let firstValue ← compMagnitude p1
  let secondValue ← compMagnitude p2
  Except.ok (decide (secondValue ≤ firstValue))

/-- `conversionLTE` (`conversion.utils.ts` lines 344-351). -/
def conversionLTE (p1 p2 : CompParams) : Except String Bool := do
  let firstValue ← compMagnitude p1
  let secondValue ← compMagnitude p2
  Except.ok (decide (firstValue ≤ secondValue))

/-- `decWEIToDecETH` (`conversion.utils.ts` lines 376-380): parse a decimal
WEI string, convert to ETH, serialize in decimal. -/
def decWEIToDecETH (decWEI : String) : Except String String := do
  let n ← NumericCtor (.str decWEI) (some 10) (some EtherDenomination.WEI)
  let n ← n.toDenomination EtherDenomination.ETH
  Except.ok (decStr n.value)

/-- `true` exactly when an `Except` computation raised. -/
def errored : Except String α → Bool
  | .error _ => true
  | .ok _ => false

/- ------------------------------------------------------------------ -/
/- Reference pipelines for the facade refinement claim                 -/
/- ------------------------------------------------------------------ -/

/-- Unit multiplier table of the denomination scaler, oriented as the spec's
concrete scenarios fix it (denominating into WEI multiplies by `10^18`,
into GWEI by `10^9`, into ETH by `1`). -/
def unitMultiplier : EtherDenomination → ℚ
  | .WEI => 1000000000000000000
  | .GWEI => 1000000000
  | .ETH => 1

/-- Mandatory unit rounding precision of the scaler (spec section 4.2):
0 decimal places for the base unit (WEI), 9 for the mid (GWEI) and major
(ETH) units. -/
def unitRoundDp : EtherDenomination → ℕ
  | .WEI => 0
  | .GWEI => 9
  | .ETH => 9

/-- Spec section 4.2 `normalize`: exact division by the unit's ratio (the
spec's scaler performs no rounding when normalizing). -/
def specNormalize (d : EtherDenomination) (q : ℚ) : ℚ := qdiv q (unitMultiplier d)

/-- Spec section 4.2 `denominate`: multiply by the target ratio, then the
mandatory unit rounding. -/
def specDenominate (d : EtherDenomination) (q : ℚ) : ℚ :=
  bigRound (qmul q (unitMultiplier d)) (unitRoundDp d) ROUND_HALF_UP

/-- Spec section 4.4 rounding policy: a zero or absent decimal-place count is
a no-op. -/
def specRound (q : ℚ) (dp : Option ℕ) (mode : ℕ) : ℚ :=
  match dp with
  | some n => if n ≠ 0 then bigRound q n mode else q
  | none => q

/-- The reference pipeline exactly as the spec words it (spec section 4.6,
steps 1-7): parse; normalize when `fromDenomination` is set; require and
apply the rate (exact reciprocal when inverted, spec section 4.3) when the
currencies differ; denominate -- with the mandatory unit rounding -- if and
only if `toDenomination` is set; the two optional roundings; serialization.
This is the claimed behavior, written from the spec's words for comparison
with `converter`. -/
def specConversionPipeline (p : ConvParams) : Except String ConvOut := do
  let n0 ← NumericCtor p.value (baseOfNumericBase p.fromNumericBase) p.fromDenomination
  let q0 := n0.value
  let q1 :=
    match p.fromDenomination with
    | some d => specNormalize d q0
    | none => q0
  let q2 ←
    if p.fromCurrency ≠ p.toCurrency then
      match p.conversionRate with
      | none => Except.error "conversionRate required"
      | some r =>
        Except.ok (qmul q1 (if p.invertConversionRate then qinv r else r))
    else
      Except.ok q1
  let q3 :=
    match p.toDenomination with
    | some d => specDenominate d q2
    | none => q2
  let q4 := specRound q3 p.numberOfDecimals ROUND_HALF_DOWN
  let q5 := specRound q4 p.roundDown ROUND_DOWN
  match baseOfNumericBase p.toNumericBase with
  | some b => Except.ok (ConvOut.str b q5)
  | none => Except.ok (ConvOut.raw q5)

/-- `getValueInETH` as a function of the denomination option: BigNumber
division by the unit ratio for WEI and GWEI, identity for ETH or an unset
denomination. -/
def normalizeFromOpt (d : Option EtherDenomination) (q : ℚ) : ℚ :=
  match d with
  | some .WEI => bigDiv q BIG_NUMBER_WEI_MULTIPLIER
  | some .GWEI => bigDiv q BIG_NUMBER_GWEI_MULTIPLIER
  | some .ETH | none => q

/-- The amended reference pipeline: identical to `specConversionPipeline`
except where the code demonstrably differs, namely (a) the rate is applied
before any denomination work, with the inverted rate computed by BigNumber
division; (b) the denomination step runs when `toDenomination` or
`fromDenomination` is set, the target defaulting to ETH, and is skipped
entirely (no normalization, no mandatory rounding) when the source
denomination already equals the target; (c) inside that step the value is
normalized by BigNumber division (an unset source denomination is treated as
major-unit terms) and then denominated with the mandatory unit rounding. -/
def amendedRateStep (p : ConvParams) (q0 : ℚ) : Except String ℚ :=
  if p.fromCurrency ≠ p.toCurrency then
    match p.conversionRate with
    | none =>
      Except.error "Converting between different currencies requires a conversionRate, but one was not provided"
    | some r =>
      Except.ok (qmul q0 (if p.invertConversionRate then bigDiv 1 r else r))
  else
    Except.ok q0

/-- Amended denomination step: runs when a target or source denomination is
set, the target defaulting to ETH, and leaves the magnitude untouched when
the source denomination already equals the target. -/
def amendedDenomStep (p : ConvParams) (q1 : ℚ) : ℚ :=
  if p.toDenomination.isSome || p.fromDenomination.isSome then
    let target := p.toDenomination.getD EtherDenomination.ETH
    if p.fromDenomination ≠ some target then
      specDenominate target (normalizeFromOpt p.fromDenomination q1)
    else q1
  else q1

/-- Amended optional rounding passes (unchanged from the spec's steps 5-6). -/
def amendedRoundSteps (p : ConvParams) (q2 : ℚ) : ℚ :=
  specRound (specRound q2 p.numberOfDecimals ROUND_HALF_DOWN) p.roundDown ROUND_DOWN

/-- Amended serialization (unchanged from the spec's step 7). -/
def amendedSerialize (p : ConvParams) (q : ℚ) : ConvOut :=
  match baseOfNumericBase p.toNumericBase with
  | some b => ConvOut.str b q
  | none => ConvOut.raw q

def amendedConversionPipeline (p : ConvParams) : Except String ConvOut := do
  let n0 ← NumericCtor p.value (baseOfNumericBase p.fromNumericBase) p.fromDenomination
  let q1 ← amendedRateStep p n0.value
  Except.ok (amendedSerialize p (amendedRoundSteps p (amendedDenomStep p q1)))

/-- Decidable equality of `Except` results, for evaluating the embedding at
concrete inputs. -/
instance exceptDecEq {ε α : Type} [DecidableEq ε] [DecidableEq α] :
    DecidableEq (Except ε α) := fun a b =>
  match a, b with
  | .ok x, .ok y =>
    if h : x = y then Decidable.isTrue (by rw [h])
    else Decidable.isFalse (by intro hh; injection hh; exact h (by assumption))
  | .error x, .error y =>
    if h : x = y then Decidable.isTrue (by rw [h])
    else Decidable.isFalse (by intro hh; injection hh; exact h (by assumption))
  | .ok _, .error _ => Decidable.isFalse (by intro hh; injection hh)
  | .error _, .ok _ => Decidable.isFalse (by intro hh; injection hh)

theorem qmul_eq (a b : ℚ) : qmul a b = a * b := by
  rw [qmul, Rat.mkRat_eq_div]
  push_cast
  rw [← div_mul_div_comm, Rat.num_div_den, Rat.num_div_den]

theorem qadd_eq (a b : ℚ) : qadd a b = a + b := by
  rw [qadd, Rat.mkRat_eq_div]
  have ha : ((a.den : ℚ)) ≠ 0 := Nat.cast_ne_zero.2 a.den_nz
  have hb : ((b.den : ℚ)) ≠ 0 := Nat.cast_ne_zero.2 b.den_nz
  push_cast
  conv_rhs => rw [← Rat.num_div_den a, ← Rat.num_div_den b]
  rw [div_add_div _ _ ha hb]
  ring_nf

theorem qsub_eq (a b : ℚ) : qsub a b = a - b := by
  rw [qsub, qadd_eq, sub_eq_add_neg]

theorem qinv_eq (a : ℚ) : qinv a = a⁻¹ := by
  have hinv : a⁻¹ = ((a.den : ℤ) : ℚ) / ((a.num : ℤ) : ℚ) := by
    rw [Rat.inv_def', Rat.divInt_eq_div]
  rcases lt_trichotomy a.num 0 with h | h | h
  · rw [qinv, if_pos h, Rat.mkRat_eq_div, hinv]
    have hn : ((a.num.natAbs : ℚ)) = -(a.num : ℚ) := by
      have h2 : ((a.num.natAbs : ℤ)) = -a.num := Int.ofNat_natAbs_of_nonpos (le_of_lt h)
      rw [← Int.cast_natCast (R := ℚ), h2, Int.cast_neg]
    rw [hn]
    push_cast
    rw [neg_div_neg_eq]
  · have ha : a = 0 := by
      rwa [Rat.num_eq_zero] at h
    subst ha
    rw [inv_zero]
    decide
  · rw [qinv, if_neg (not_lt.2 (le_of_lt h)), Rat.mkRat_eq_div, hinv]
    have hn : ((a.num.natAbs : ℚ)) = (a.num : ℚ) := by
      have h2 : ((a.num.natAbs : ℤ)) = a.num := Int.natAbs_of_nonneg (le_of_lt h)
      rw [← Int.cast_natCast (R := ℚ), h2]
    rw [hn]

theorem qdiv_eq (a b : ℚ) : qdiv a b = a / b := by
  rw [qdiv, qmul_eq, qinv_eq, div_eq_mul_inv]

theorem NumericCtor_denomination (v : NumericValue) (b : Option ℕ)
    (d : Option EtherDenomination) (n : Numeric)
    (h : NumericCtor v b d = Except.ok n) : n.denomination = d := by
  cases v with
  | big q => simp [NumericCtor] at h; rw [← h]
  | undef => simp [NumericCtor] at h; rw [← h]
  | str s =>
    cases b with
    | none => simp [NumericCtor] at h
    | some bb =>
      simp only [NumericCtor] at h
      cases hv : valueToBigNumber (.str s) bb with
      | error e => rw [hv] at h; exact Except.noConfusion h
      | ok q =>
        rw [hv] at h
        have h3 : Except.ok (⟨q, some bb, d⟩ : Numeric) = Except.ok n := h
        injection h3 with h4
        rw [← h4]
  | num m =>
    cases b with
    | none => simp [NumericCtor] at h
    | some bb =>
      simp only [NumericCtor] at h
      cases hv : valueToBigNumber (.num m) bb with
      | error e => rw [hv] at h; exact Except.noConfusion h
      | ok q =>
        rw [hv] at h
        have h3 : Except.ok (⟨q, some bb, d⟩ : Numeric) = Except.ok n := h
        injection h3 with h4
        rw [← h4]

theorem applyConversionRate_some (self : Numeric) (r : ℚ) (invert : Bool) :
    Numeric.applyConversionRate self (some r) invert =
      ⟨qmul self.value (if invert then bigDiv 1 r else r), self.base,
        self.denomination⟩ := by
  cases invert <;>
    simp [Numeric.applyConversionRate, Numeric.times, Numeric.divide]

theorem jsTypeofDenomination_ne_undef (d : Option EtherDenomination) :
    jsTypeofDenomination d ≠ JSVal.undef := by
  cases d <;> simp [jsTypeofDenomination]

theorem toDenomination_ok (self : Numeric) (d : EtherDenomination) :
    Numeric.toDenomination self d =
      Except.ok
        (if self.denomination ≠ some d then
          ⟨toSpecifiedDenomination d self.getValueInETH, self.base, some d⟩
        else self) := by
  rw [Numeric.toDenomination, Numeric.toDenominationCall,
    if_neg (by simpa using jsTypeofDenomination_ne_undef self.denomination)]
  split
  · rfl
  · rfl

theorem getValueInETH_eq (self : Numeric) :
    self.getValueInETH = normalizeFromOpt self.denomination self.value := by
  rcases self with ⟨v, b, d⟩
  rcases d with _ | d
  · rfl
  · cases d <;> rfl

theorem toSpecifiedDenomination_eq_specDenominate (d : EtherDenomination) (q : ℚ) :
    toSpecifiedDenomination d q = specDenominate d q := by
  cases d <;> rfl

theorem round_eq_specRound (self : Numeric) (nd : Option ℕ) (m : ℕ) :
    Numeric.round self nd m = ⟨specRound self.value nd m, self.base, self.denomination⟩ := by
  rcases nd with _ | n
  · rfl
  · rcases self with ⟨v, b, d⟩
    by_cases hn : n = 0
    · subst hn; rfl
    · simp [Numeric.round, Numeric.roundCall, applyRet, specRound, hn]

theorem toBase_value (self : Numeric) (b : Option ℕ) :
    (Numeric.toBase self b).value = self.value := by
  rw [Numeric.toBase, Numeric.toBaseCall]
  split <;> rfl

theorem ok_bind {α β : Type} (a : α) (f : α → Except String β) :
    ((Except.ok a : Except String α) >>= f) = f a := rfl

theorem error_bind {α β : Type} (e : String) (f : α → Except String β) :
    ((Except.error e : Except String α) >>= f) = Except.error e := rfl

theorem converterRateStep_eq (p : ConvParams) (n0 : Numeric) :
    converterRateStep p n0 =
      (amendedRateStep p n0.value).map (fun q => ⟨q, n0.base, n0.denomination⟩) := by
  rw [converterRateStep, amendedRateStep]
  split
  · cases p.conversionRate with
    | none => rfl
    | some r =>
      dsimp only
      rw [applyConversionRate_some]
      rfl
  · rfl

theorem converterDenomStep_eq (p : ConvParams) (n1 : Numeric)
    (hdn : n1.denomination = p.fromDenomination) :
    ∃ n2 : Numeric,
      converterDenomStep p n1 = Except.ok n2 ∧
      n2.value = amendedDenomStep p n1.value := by
  rw [converterDenomStep, amendedDenomStep]
  by_cases hden : (p.toDenomination.isSome || p.fromDenomination.isSome) = true
  · rw [if_pos hden, if_pos hden, toDenomination_ok, hdn]
    by_cases htar : p.fromDenomination = some (p.toDenomination.getD EtherDenomination.ETH)
    · rw [if_neg (not_not_intro htar), if_neg (not_not_intro htar)]
      exact ⟨n1, rfl, rfl⟩
    · rw [if_pos htar, if_pos htar]
      refine ⟨_, rfl, ?_⟩
      rw [toSpecifiedDenomination_eq_specDenominate, getValueInETH_eq, hdn]
  · rw [if_neg hden, if_neg hden]
    exact ⟨n1, rfl, rfl⟩

theorem converterRoundSteps_value (p : ConvParams) (n2 : Numeric) :
    (converterRoundSteps p n2).value = amendedRoundSteps p n2.value := by
  rw [converterRoundSteps, amendedRoundSteps]
  have h3 : (if p.numberOfDecimals.isSome then
      n2.round p.numberOfDecimals ROUND_HALF_DOWN else n2) =
      ⟨specRound n2.value p.numberOfDecimals ROUND_HALF_DOWN, n2.base, n2.denomination⟩ := by
    cases hnd : p.numberOfDecimals with
    | none => rw [if_neg (by simp)]; rw [specRound]
    | some n => rw [if_pos (by simp), round_eq_specRound]
  rw [h3]
  cases hrd : p.roundDown with
  | none => rfl
  | some rd =>
    dsimp only
    by_cases hz : rd = 0
    · subst hz
      simp [specRound]
    · rw [if_pos hz, round_eq_specRound]

theorem converterSerialize_eq (p : ConvParams) (n4 : Numeric) :
    converterSerialize p n4 = amendedSerialize p n4.value := by
  rw [converterSerialize, amendedSerialize]
  cases baseOfNumericBase p.toNumericBase with
  | none => rfl
  | some b =>
    dsimp only
    rw [toBase_value]

/-- C2 (amended): `converter` coincides, on every input, with the reference
pipeline corrected as the counterexample forces: the conversion rate is
applied before any denomination work (the inverted rate computed by
BigNumber division), and the denominate-with-mandatory-rounding step runs
when `toDenomination` or `fromDenomination` is set (target defaulting to
ETH), normalizing by BigNumber division inside that step and skipping it
entirely when the source denomination equals the target. -/
theorem converter_eq_amendedPipeline (p : ConvParams) :
    converter p = amendedConversionPipeline p := by
  rw [converter, amendedConversionPipeline]
  cases hc : NumericCtor p.value (baseOfNumericBase p.fromNumericBase) p.fromDenomination with
  | error e => rfl
  | ok n0 =>
    have hd : n0.denomination = p.fromDenomination :=
      NumericCtor_denomination _ _ _ _ hc
    rw [ok_bind, ok_bind, converterRateStep_eq]
    cases hr : amendedRateStep p n0.value with
    | error e => rfl
    | ok q1 =>
      rw [Except.map, ok_bind, ok_bind]
      obtain ⟨n2, hstep, hval⟩ := converterDenomStep_eq p ⟨q1, n0.base, n0.denomination⟩ hd
      rw [hstep, ok_bind]
      rw [converterSerialize_eq, converterRoundSteps_value, hval]

theorem errored_bind {α β : Type} (x : Except String α) (f : α → Except String β)
    (h : errored x = true) : errored (x >>= f) = true := by
  cases x with
  | error e => rfl
  | ok a => simp [errored] at h

theorem converter_missing_rate_errors (p : ConvParams)
    (h1 : p.fromCurrency ≠ p.toCurrency) (h2 : p.conversionRate = none) :
    errored (converter p) = true := by
  rw [converter]
  cases hc : NumericCtor p.value (baseOfNumericBase p.fromNumericBase) p.fromDenomination with
  | error e => rfl
  | ok n0 =>
    rw [ok_bind, converterRateStep, if_pos h1, h2]
    rfl

theorem compMagnitude_errored (p : CompParams)
    (h1 : p.fromCurrency ≠ p.toCurrency) (h2 : p.conversionRate = none) :
    errored (compMagnitude p) = true := by
  rw [compMagnitude]
  have h := converter_missing_rate_errors p.toConvParams h1 h2
  cases hc : converter p.toConvParams with
  | error e => rfl
  | ok o => rw [hc] at h; simp [errored] at h

/-- C9: parsing the string "100" with declared base 16 succeeds with
magnitude 0x100 = 256, parsing it with declared base 10 succeeds with
magnitude 100, and the two magnitudes differ. -/
theorem parse_100_hex_vs_dec :
    NumericCtor (.str "100") (some 16) none = Except.ok ⟨256, some 16, none⟩ ∧
    NumericCtor (.str "100") (some 10) none = Except.ok ⟨100, some 10, none⟩ ∧
    (256 : ℚ) ≠ (100 : ℚ) := by
  refine ⟨by decide, by decide, by decide⟩

/-- C7: `add`/`minus` produce the exact sum/difference of the magnitudes with
the left operand's base and a cleared denomination; `times`/`divide` produce
the product/BigNumber-quotient with the left operand's base and
denomination. -/
theorem arithmetic_frame_effects (x y : Numeric) :
    x.add y = ⟨x.value + y.value, x.base, none⟩ ∧
    x.minus y = ⟨x.value - y.value, x.base, none⟩ ∧
    x.times y = ⟨x.value * y.value, x.base, x.denomination⟩ ∧
    x.divide y = ⟨bigDiv x.value y.value, x.base, x.denomination⟩ := by
  refine ⟨?_, ?_, ?_, rfl⟩
  · rw [Numeric.add, qadd_eq]
  · rw [Numeric.minus, qsub_eq]
  · rw [Numeric.times, qmul_eq]

/-- C8: `toBase` only re-tags the serialization base; a round trip through
any base leaves the magnitude untouched. -/
theorem toBase_roundTrip (v : Numeric) (b : ℕ) (hb : b = 10 ∨ b = 16) :
    ((v.toBase (some b)).toBase v.base).value = v.value := by
  rw [toBase_value, toBase_value]

/-- Witness for C8 at the concrete value 7 tagged decimal, round-tripped
through hexadecimal. -/
theorem toBase_roundTrip_witness :
    ((Numeric.toBase (Numeric.toBase ⟨7, some 10, none⟩ (some 16)) (some 10)).value) = 7 :=
  toBase_roundTrip ⟨7, some 10, none⟩ 16 (Or.inr rfl)

/-- C1 (code evaluated at failing input): `toDenomination` called on a
`Numeric` built without a denomination does not throw; the dead guard
`typeof this.denomination === undefined` lets the call fall through and a
converted value (treating the magnitude as ETH) is returned. -/
theorem toDenomination_undefined_guard_dead :
    Numeric.toDenominationCall ⟨1, some 10, none⟩ EtherDenomination.WEI =
      Except.ok (⟨1, some 10, none⟩,
        MethodRet.fresh ⟨1000000000000000000, some 10, some EtherDenomination.WEI⟩) := by
  decide

/-- C10: with no denomination set, `toDenomination(target)` treats the stored
magnitude as already being in ETH terms: it multiplies by the target's
multiplier, applies the unit rounding, and tags the result with the target;
no normalizing division happens first. -/
theorem toDenomination_undefined_treats_value_as_ETH (self : Numeric)
    (t : EtherDenomination) (h : self.denomination = none) :
    Numeric.toDenominationCall self t =
      Except.ok (self,
        MethodRet.fresh ⟨toSpecifiedDenomination t self.value, self.base, some t⟩) := by
  rw [Numeric.toDenominationCall,
    if_neg (by simpa using jsTypeofDenomination_ne_undef self.denomination),
    if_pos (by rw [h]; exact Option.noConfusion)]
  have hv : self.getValueInETH = self.value := by
    rw [getValueInETH_eq, h, normalizeFromOpt]
  rw [hv]

/-- Witness for C10 at magnitude 3, base 16, target GWEI. -/
theorem toDenomination_undefined_treats_value_as_ETH_witness :
    Numeric.toDenominationCall ⟨3, some 16, none⟩ EtherDenomination.GWEI =
      Except.ok (⟨3, some 16, none⟩,
        MethodRet.fresh ⟨3000000000, some 16, some EtherDenomination.GWEI⟩) := by
  have h := toDenomination_undefined_treats_value_as_ETH ⟨3, some 16, none⟩
    EtherDenomination.GWEI rfl
  rw [h]
  decide

theorem bigRound_mul_den_one (q : ℚ) (dp : ℕ) (m : ℕ) :
    (qmul (bigRound q dp m) ((10 ^ dp : ℕ) : ℚ)).den = 1 := by
  rw [bigRound, qmul_eq, Rat.mkRat_eq_div]
  have hp : (((10 ^ dp : ℕ) : ℚ)) ≠ 0 :=
    Nat.cast_ne_zero.2 (pow_ne_zero dp (by norm_num))
  rw [div_mul_cancel₀ _ hp]
  exact Rat.den_intCast _

/-- C6: whenever `toDenomination` converts into a different unit, the scaled
value is unit-rounded unconditionally -- to 0 decimal places for WEI and 9
for GWEI and ETH (so the result times `10^dp` is an integer) -- and the
concrete conversion of decimal 9358749494527040 WEI to ETH with no caller
rounding serializes as "0.009358749". -/
theorem toDenomination_mandatory_unit_rounding :
    (∀ (self : Numeric) (t : EtherDenomination), self.denomination ≠ some t →
      Numeric.toDenomination self t =
        Except.ok ⟨bigRound (qmul self.getValueInETH (unitMultiplier t))
            (unitRoundDp t) ROUND_HALF_UP, self.base, some t⟩ ∧
      (qmul (bigRound (qmul self.getValueInETH (unitMultiplier t))
          (unitRoundDp t) ROUND_HALF_UP) ((10 ^ unitRoundDp t : ℕ) : ℚ)).den = 1) ∧
    decWEIToDecETH "9358749494527040" = Except.ok "0.009358749" := by
  constructor
  · intro self t h
    constructor
    · rw [toDenomination_ok, if_pos h]
      have hs : toSpecifiedDenomination t self.getValueInETH =
          bigRound (qmul self.getValueInETH (unitMultiplier t))
            (unitRoundDp t) ROUND_HALF_UP := by
        cases t <;> rfl
      rw [hs]
    · exact bigRound_mul_den_one _ _ _
  · decide

/-- Witness for C6: 2 GWEI converted to WEI. -/
theorem toDenomination_mandatory_unit_rounding_witness :
    Numeric.toDenomination ⟨2, some 10, some EtherDenomination.GWEI⟩ EtherDenomination.WEI =
      Except.ok ⟨2000000000, some 10, some EtherDenomination.WEI⟩ := by
  have h := toDenomination_mandatory_unit_rounding.1
    ⟨2, some 10, some EtherDenomination.GWEI⟩ EtherDenomination.WEI (by decide)
  rw [h.1]
  decide

/-- C3 counterexample: `setDenomination` mutates the receiver (its
denomination changes from unset to GWEI) and returns the receiver itself,
and `toBase` with the already-current base also returns the receiver rather
than a new instance. -/
theorem setDenomination_mutates_and_returns_receiver :
    (Numeric.setDenominationCall ⟨5, some 10, none⟩ EtherDenomination.GWEI).1 ≠
      (⟨5, some 10, none⟩ : Numeric) ∧
    (Numeric.setDenominationCall ⟨5, some 10, none⟩ EtherDenomination.GWEI).2 =
      MethodRet.this ∧
    (Numeric.toBaseCall ⟨5, some 10, none⟩ (some 10)).2 = MethodRet.this := by
  refine ⟨by decide, rfl, by decide⟩

/-- C3 (amended): every public operation except `setDenomination` leaves the
receiver's fields untouched; the arithmetic transforms always return a fresh
instance; `setDenomination` assigns the receiver's denomination in place and
returns the receiver; and `toBase`, `toDenomination` and `round` return a
fresh instance exactly when they change something (a new base, a different
target denomination, a nonzero decimal count) and the receiver itself on a
no-op. -/
theorem numeric_methods_receiver_discipline (self other : Numeric)
    (b : Option ℕ) (d : EtherDenomination) (nd : Option ℕ) (m : ℕ)
    (r : Option ℚ) (i : Bool) :
    (Numeric.toBaseCall self b).1 = self ∧
    (Numeric.toDenominationCall self d).map Prod.fst = Except.ok self ∧
    (Numeric.roundCall self nd m).1 = self ∧
    Numeric.addCall self other = (self, MethodRet.fresh (self.add other)) ∧
    Numeric.minusCall self other = (self, MethodRet.fresh (self.minus other)) ∧
    Numeric.timesCall self other = (self, MethodRet.fresh (self.times other)) ∧
    Numeric.divideCall self other = (self, MethodRet.fresh (self.divide other)) ∧
    Numeric.applyConversionRateCall self r i =
      (self, MethodRet.fresh (self.applyConversionRate r i)) ∧
    Numeric.setDenominationCall self d =
      ({ self with denomination := some d }, MethodRet.this) ∧
    (Numeric.toBaseCall self b).2 =
      (if self.base ≠ b then MethodRet.fresh ⟨self.value, b, self.denomination⟩
       else MethodRet.this) ∧
    (Numeric.toDenominationCall self d).map Prod.snd =
      Except.ok
        (if self.denomination = some d then MethodRet.this
         else MethodRet.fresh
           ⟨toSpecifiedDenomination d self.getValueInETH, self.base, some d⟩) ∧
    (Numeric.roundCall self nd m).2 =
      (if nd.getD 0 ≠ 0 then
        MethodRet.fresh ⟨bigRound self.value (nd.getD 0) m, self.base, self.denomination⟩
       else MethodRet.this) := by
  refine ⟨?_, ?_, ?_, rfl, rfl, rfl, rfl, rfl, rfl, ?_, ?_, ?_⟩
  · rw [Numeric.toBaseCall]
    split <;> rfl
  · rw [Numeric.toDenominationCall,
      if_neg (by simpa using jsTypeofDenomination_ne_undef self.denomination)]
    split <;> rfl
  · cases nd with
    | none => rfl
    | some n =>
      simp only [Numeric.roundCall]
      split <;> rfl
  · rw [Numeric.toBaseCall]
    split <;> rfl
  · rw [Numeric.toDenominationCall,
      if_neg (by simpa using jsTypeofDenomination_ne_undef self.denomination)]
    split
    · rfl
    · rw [if_pos (not_not.1 (by assumption))]
      rfl
  · cases nd with
    | none => rfl
    | some n =>
      simp only [Numeric.roundCall, Option.getD_some]
      by_cases hn : n = 0
      · subst hn
        simp
      · rw [if_pos hn, if_pos hn]

/-- C4: when the (defaulted) target currency differs from the source currency
and no conversion rate was supplied, the `conversionUtil` facade returns the
literal number 0 without raising. -/
theorem conversionUtil_missing_rate_returns_zero (v : NumericValue) (o : UtilOpts)
    (h1 : o.fromCurrency ≠ o.resolvedToCurrency) (h2 : o.conversionRate = none) :
    conversionUtil v o = Except.ok UtilOut.zeroGuard := by
  rw [conversionUtil]
  rw [if_pos (by simp [h1, h2, rateFalsy])]

/-- Witness for C4: ETH to USD with no rate. -/
theorem conversionUtil_missing_rate_returns_zero_witness :
    conversionUtil (.str "1")
      { fromCurrency := some "ETH", toCurrency := some "USD",
        fromNumericBase := some "dec", toNumericBase := some "dec",
        fromDenomination := none, toDenomination := none,
        numberOfDecimals := none, conversionRate := none,
        invertConversionRate := false, roundDown := none } =
      Except.ok UtilOut.zeroGuard :=
  conversionUtil_missing_rate_returns_zero (.str "1") _ (by decide) rfl

/-- C5: every conversion entry point that reaches `converter` directly --
the four two-operand arithmetic helpers and the comparison helpers -- yields
an error (never a value) when the currencies differ and the conversion rate
is null or undefined. -/
theorem entry_points_missing_rate_error (a b : NumericValue) (o : TwoOpOpts)
    (p1 p2 : CompParams)
    (h1 : o.fromCurrency ≠ o.toCurrency) (h2 : o.conversionRate = none)
    (h3 : p1.fromCurrency ≠ p1.toCurrency) (h4 : p1.conversionRate = none) :
    errored (addCurrencies a b o) = true ∧
    errored (subtractCurrencies a b o) = true ∧
    errored (multiplyCurrencies a b o) = true ∧
    errored (divideCurrencies a b o) = true ∧
    errored (conversionGreaterThan p1 p2) = true ∧
    errored (conversionLessThan p1 p2) = true ∧
    errored (conversionGTE p1 p2) = true ∧
    errored (conversionLTE p1 p2) = true := by
  have htwo : ∀ (mkv : ℚ → ℚ → NumericValue) (msg : String),
      errored
        ((if !isValidBase o.aBase || !isValidBase o.bBase then
            Except.error msg
          else do
            let va ← getBigNumber a o.aBase
            let vb ← getBigNumber b o.bBase
            converter (o.toConvParams (mkv va vb))) : Except String ConvOut) = true := by
    intro mkv msg
    by_cases hvb : (!isValidBase o.aBase || !isValidBase o.bBase) = true
    · rw [if_pos hvb]
      rfl
    · rw [if_neg hvb]
      cases ha : getBigNumber a o.aBase with
      | error e => rfl
      | ok va =>
        rw [ok_bind]
        cases hgb : getBigNumber b o.bBase with
        | error e => rfl
        | ok vb =>
          rw [ok_bind]
          exact converter_missing_rate_errors _ h1 h2
  refine ⟨htwo (fun x y => .big (qadd x y)) _, htwo (fun x y => .big (qsub x y)) _,
    htwo (fun x y => .big (qmul x y)) _, htwo (fun x y => .big (bigDiv x y)) _,
    ?_, ?_, ?_, ?_⟩
  · exact errored_bind _ _ (compMagnitude_errored p1 h3 h4)
  · exact errored_bind _ _ (compMagnitude_errored p1 h3 h4)
  · exact errored_bind _ _ (compMagnitude_errored p1 h3 h4)
  · exact errored_bind _ _ (compMagnitude_errored p1 h3 h4)

/-- Witness for C5 at concrete inputs (ETH to USD, no rate anywhere). -/
theorem entry_points_missing_rate_error_witness :
    errored (addCurrencies (.num 1) (.num 2)
      { aBase := 10, bBase := 10, fromNumericBase := none,
        fromDenomination := none, fromCurrency := some "ETH",
        toNumericBase := none, toDenomination := none, toCurrency := some "USD",
        numberOfDecimals := none, conversionRate := none,
        invertConversionRate := false, roundDown := none }) = true ∧
    errored (conversionGreaterThan
      { value := .str "1", fromNumericBase := some "dec", fromDenomination := none,
        fromCurrency := some "ETH", toDenomination := none, toCurrency := some "USD",
        numberOfDecimals := none, conversionRate := none,
        invertConversionRate := false, roundDown := none }
      { value := .str "2", fromNumericBase := some "dec", fromDenomination := none,
        fromCurrency := none, toDenomination := none, toCurrency := none,
        numberOfDecimals := none, conversionRate := none,
        invertConversionRate := false, roundDown := none }) = true := by
  have h := entry_points_missing_rate_error (.num 1) (.num 2)
    { aBase := 10, bBase := 10, fromNumericBase := none,
      fromDenomination := none, fromCurrency := some "ETH",
      toNumericBase := none, toDenomination := none, toCurrency := some "USD",
      numberOfDecimals := none, conversionRate := none,
      invertConversionRate := false, roundDown := none }
    { value := .str "1", fromNumericBase := some "dec", fromDenomination := none,
      fromCurrency := some "ETH", toDenomination := none, toCurrency := some "USD",
      numberOfDecimals := none, conversionRate := none,
      invertConversionRate := false, roundDown := none }
    { value := .str "2", fromNumericBase := some "dec", fromDenomination := none,
      fromCurrency := none, toDenomination := none, toCurrency := none,
      numberOfDecimals := none, conversionRate := none,
      invertConversionRate := false, roundDown := none }
    (by decide) rfl (by decide) rfl
  exact ⟨h.1, h.2.2.2.2.1⟩

/-- C2 counterexample: on decimal "5" with `fromDenomination = WEI` and no
`toDenomination`, the implementation still denominates (into the ETH
default, with the mandatory 9-decimal rounding) and returns raw 0, while
the spec's pipeline -- which denominates if and only if `toDenomination` is
set -- returns the normalized 5e-18. -/
theorem converter_differs_from_spec_pipeline :
    converter
      { value := .str "5", fromNumericBase := some "dec",
        fromDenomination := some EtherDenomination.WEI, fromCurrency := none,
        toNumericBase := none, toDenomination := none, toCurrency := none,
        numberOfDecimals := none, conversionRate := none,
        invertConversionRate := false, roundDown := none } =
      Except.ok (ConvOut.raw 0) ∧
    specConversionPipeline
      { value := .str "5", fromNumericBase := some "dec",
        fromDenomination := some EtherDenomination.WEI, fromCurrency := none,
        toNumericBase := none, toDenomination := none, toCurrency := none,
        numberOfDecimals := none, conversionRate := none,
        invertConversionRate := false, roundDown := none } =
      Except.ok (ConvOut.raw (mkRat 1 200000000000000000)) ∧
    converter
      { value := .str "5", fromNumericBase := some "dec",
        fromDenomination := some EtherDenomination.WEI, fromCurrency := none,
        toNumericBase := none, toDenomination := none, toCurrency := none,
        numberOfDecimals := none, conversionRate := none,
        invertConversionRate := false, roundDown := none } ≠
    specConversionPipeline
      { value := .str "5", fromNumericBase := some "dec",
        fromDenomination := some EtherDenomination.WEI, fromCurrency := none,
        toNumericBase := none, toDenomination := none, toCurrency := none,
        numberOfDecimals := none, conversionRate := none,
        invertConversionRate := false, roundDown := none } := by
  refine ⟨by decide, by decide, by decide⟩
